import Mathlib

/-!
Shallow embedding of `src/buffer.rs` (buffer pool manager with clock-sweep
eviction) and proofs about its operations.

Modelling conventions:
* `PageId`, `BufferId` are `Nat` (Rust: newtype wrappers over integers).
* `Page` is a `List Nat` of bytes; the fixed `PAGE_SIZE` plays no role in any
  of the verified properties, so page contents are kept abstract as byte lists.
* `Rc<Buffer>` is modelled by storing the `Buffer` value in the frame together
  with `extraRefs`, the number of live clones of the `Rc` held outside the
  pool (so the Rust strong count is `extraRefs + 1`, and `Rc::get_mut`
  succeeds exactly when `extraRefs = 0`).
* The `loop` in `BufferPool::evict` is written with explicit fuel; the fuel
  chosen by `BufferPool.evict` is proved sufficient (`evictGo_ne_none`), so the
  fuel default branch is unreachable and every definition stays computable.
* Fallible disk calls return `Except`; the `unwrap` in `fetch_page` is modelled
  by an explicit `FetchResult.panicked` outcome.
-/

abbrev PageId := Nat

abbrev BufferId := Nat

abbrev Page := List Nat

/-- Opaque payload of a disk I/O error (`std::io::Error`). -/
abbrev IOError := Nat

/-- Rust `enum Error` (`Io(std::io::Error)` / `NoFreeBuffer`) from `src/buffer.rs`. -/
inductive Error where
  | ioError (e : IOError)
  | noFreeBuffer
deriving Repr, DecidableEq

/-- Rust `struct Buffer` (`page_id`, `page`, `is_dirty`) from `src/buffer.rs`. -/
structure Buffer where
  page_id : PageId
  page : Page
  is_dirty : Bool
deriving Repr, DecidableEq, Inhabited

/-- Rust `struct Frame` (`usage_count`, `buffer: Rc<Buffer>`) from `src/buffer.rs`.
`extraRefs` counts the live `Rc` clones held outside the pool. -/
structure Frame where
  usage_count : Nat
  buffer : Buffer
  extraRefs : Nat
deriving Repr, DecidableEq, Inhabited

/-- Rust `struct BufferPool` (`buffers: Vec<Frame>`, `next_victim_id`). -/
structure BufferPool where
  buffers : List Frame
  next_victim_id : BufferId
deriving Repr, DecidableEq, Inhabited

def BufferPool.size (p : BufferPool) : Nat := p.buffers.length

/-- Total usage count of the frames whose buffer has no outside holder;
used only to bound the number of clock-sweep steps. -/
def unpinnedUsage (bufs : List Frame) : Nat :=
  (bufs.map fun f => if f.extraRefs = 0 then f.usage_count else 0).sum

/-- Fuel that provably dominates the number of iterations of the sweep. -/
def evictFuel (bufs : List Frame) : Nat :=
  unpinnedUsage bufs * bufs.length + bufs.length + 1

/-- The `loop` body of `BufferPool::evict` (`src/buffer.rs` lines 47-63),
one constructor-recursive step per iteration.  Returns
`some (victim?, buffers, cursor)`; `none` means the fuel ran out (proved
unreachable for the fuel chosen by `BufferPool.evict`). -/
def evictGo : Nat → List Frame → Nat → Nat → Option (Option Nat × List Frame × Nat)
  | 0, _, _, _ => none
  | fuel + 1, bufs, cursor, consecutive =>
    let f := bufs.getD cursor default
    if f.usage_count = 0 then
      some (some cursor, bufs, cursor)
    else if f.extraRefs = 0 then
      evictGo fuel (bufs.set cursor { f with usage_count := f.usage_count - 1 })
        ((cursor + 1) % bufs.length) 0
    else if consecutive + 1 ≥ bufs.length then
      some (none, bufs, cursor)
    else
      evictGo fuel bufs ((cursor + 1) % bufs.length) (consecutive + 1)

/-- Embedding of `BufferPool::evict` (`src/buffer.rs` lines 43-65): clock sweep starting at
`next_victim_id` with `consecutive_pinned = 0`.  Returns the victim (if any)
together with the mutated pool. -/
def BufferPool.evict (p : BufferPool) : Option BufferId × BufferPool :=
  match evictGo (evictFuel p.buffers) p.buffers p.next_victim_id 0 with
  | some (r, bufs', c') => (r, ⟨bufs', c'⟩)
  | none => (none, p)

/-- Page table: `HashMap<PageId, BufferId>` modelled as an association list
with unique keys maintained by `insertTable`. -/
abbrev PageTable := List (PageId × BufferId)

def lookupTable : PageTable → PageId → Option BufferId
  | [], _ => none
  | (k, v) :: rest, p => if k = p then some v else lookupTable rest p

def removeTable : PageTable → PageId → PageTable
  | [], _ => []
  | (k, v) :: rest, p =>
    if k = p then removeTable rest p else (k, v) :: removeTable rest p

def insertTable (t : PageTable) (p : PageId) (b : BufferId) : PageTable :=
  (p, b) :: removeTable t p

/-- Modelled from the spec: the disk collaborator (`src/disk.rs`, providing
`PageId`, `PAGE_SIZE` and `DiskManager`) is not present under `src/`; §6 of the
design document gives its contract: `read_page_data` fills a page-sized
out-buffer with the durable content of the page or fails with an I/O error,
and `write_page_data` persists the exact bytes or fails with an I/O error.
Failures are modelled by per-page error oracles; a failed read leaves the
out-buffer unchanged. -/
structure DiskManager where
  store : PageId → Page
  readErr : PageId → Option IOError
  writeErr : PageId → Option IOError

/-- Modelled from the spec: `DiskManager::read_page_data(page_id, out_buffer)`.
Returns the new content of the out-buffer on success. -/
def read_page_data (d : DiskManager) (pid : PageId) : Except IOError Page :=
  match d.readErr pid with
  | some e => Except.error e
  | none => Except.ok (d.store pid)

/-- Modelled from the spec: `DiskManager::write_page_data(page_id, in_buffer)`. -/
def write_page_data (d : DiskManager) (pid : PageId) (data : Page) :
    Except IOError DiskManager :=
  match d.writeErr pid with
  | some e => Except.error e
  | none =>
    Except.ok { d with store := fun q => if q = pid then data else d.store q }

/-- One block I/O operation performed (or attempted) against the disk. -/
inductive IOOp where
  | write (pid : PageId) (data : Page)
  | read (pid : PageId)
deriving Repr, DecidableEq

/-- Rust `struct BufferPoolManager` (`disk`, `pool`, `page_table`). -/
structure BufferPoolManager where
  disk : DiskManager
  pool : BufferPool
  page_table : PageTable

/-- Outcome of `fetch_page`: `Ok(Rc<Buffer>)` (the handle is modelled by the
frame index whose `extraRefs` was incremented), `Err(e)`, or a panic of the
`Rc::get_mut(..).unwrap()` on line 102 of `src/buffer.rs`. -/
inductive FetchResult where
  | ok (buffer_id : BufferId)
  | err (e : Error)
  | panicked
deriving Repr, DecidableEq

/-- Tail of the miss path of `fetch_page` (`src/buffer.rs` lines 106-114),
after the optional dirty write-back: set `page_id`, clear the dirty flag, read
the requested page from disk, set `usage_count := 1`, clone the handle and
update the page table. -/
def fetchLoad (disk : DiskManager) (pool' : BufferPool) (table : PageTable)
    (buffer_id : BufferId) (pid : PageId) (tr : List IOOp) :
    FetchResult × BufferPoolManager × List IOOp :=
  let f := pool'.buffers.getD buffer_id default
  let fMid : Frame :=
    { f with buffer := { f.buffer with page_id := pid, is_dirty := false } }
  match read_page_data disk pid with
  | Except.error e =>
    (FetchResult.err (Error.ioError e),
     ⟨disk, { pool' with buffers := pool'.buffers.set buffer_id fMid }, table⟩,
     tr ++ [IOOp.read pid])
  | Except.ok content =>
    let bNew : Buffer := { fMid.buffer with page := content }
    let fNew : Frame := { fMid with buffer := bNew, usage_count := 1, extraRefs := 1 }
    (FetchResult.ok buffer_id,
     ⟨disk,
      { pool' with buffers := pool'.buffers.set buffer_id fNew },
      insertTable (removeTable table f.buffer.page_id) pid buffer_id⟩,
     tr ++ [IOOp.read pid])

/-- Embedding of `BufferPoolManager::fetch_page` (`src/buffer.rs` lines 91-115).  Besides
the result and the mutated manager it returns the list of disk operations
attempted, in order. -/
def BufferPoolManager.fetch_page (s : BufferPoolManager) (pid : PageId) :
    FetchResult × BufferPoolManager × List IOOp :=
  match lookupTable s.page_table pid with
  | some buffer_id =>
    let f := s.pool.buffers.getD buffer_id default
    let f' : Frame :=
      { f with usage_count := f.usage_count + 1, extraRefs := f.extraRefs + 1 }
    (FetchResult.ok buffer_id,
     { s with pool := { s.pool with buffers := s.pool.buffers.set buffer_id f' } },
     [])
  | none =>
    match s.pool.evict with
    | (none, pool') => (FetchResult.err Error.noFreeBuffer, { s with pool := pool' }, [])
    | (some buffer_id, pool') =>
      let f := pool'.buffers.getD buffer_id default
      let evict_page_id := f.buffer.page_id
      if f.extraRefs ≠ 0 then
        (FetchResult.panicked, { s with pool := pool' }, [])
      else if f.buffer.is_dirty then
        match write_page_data s.disk evict_page_id f.buffer.page with
        | Except.error e =>
          (FetchResult.err (Error.ioError e), { s with pool := pool' },
           [IOOp.write evict_page_id f.buffer.page])
        | Except.ok disk1 =>
          fetchLoad disk1 pool' s.page_table buffer_id pid
            [IOOp.write evict_page_id f.buffer.page]
      else
        fetchLoad s.disk pool' s.page_table buffer_id pid []

/-- Contribution of one frame to `unpinnedUsage`. -/
def contrib (f : Frame) : Nat :=
  if f.extraRefs = 0 then f.usage_count else 0

/-- Decreasing measure of the clock sweep: every iteration strictly lowers it
(while `consecutive < bufs.length`). -/
def sweepMeasure (bufs : List Frame) (consecutive : Nat) : Nat :=
  unpinnedUsage bufs * bufs.length + (bufs.length - consecutive)

/-- A caller drops one live shared handle to frame `b`'s buffer
(`Rc<Buffer>` going out of scope outside the pool). -/
def dropHandle (s : BufferPoolManager) (b : BufferId) : BufferPoolManager :=
  let f := s.pool.buffers.getD b default
  { s with pool := { s.pool with
      buffers := s.pool.buffers.set b { f with extraRefs := f.extraRefs - 1 } } }

/-- A caller holding a shared handle sets the buffer's dirty flag through the
`Cell<bool>` (the only mutation a shared holder can perform on a `Buffer`). -/
def setDirtyFlag (s : BufferPoolManager) (b : BufferId) (v : Bool) : BufferPoolManager :=
  let f := s.pool.buffers.getD b default
  { s with pool := { s.pool with
      buffers := s.pool.buffers.set b { f with buffer := { f.buffer with is_dirty := v } } } }

/-- The environment changes which disk operations will fail (the durable store
itself is only changed through `write_page_data`). -/
def setDiskFaults (s : BufferPoolManager) (rE wE : PageId → Option IOError) :
    BufferPoolManager :=
  { s with disk := { s.disk with readErr := rE, writeErr := wE } }

/-- A freshly constructed manager: non-empty pool, cursor at 0, empty page
table, every frame unused and with no outside holder (each `Rc` is fresh). -/
def InitState (s : BufferPoolManager) : Prop :=
  0 < s.pool.buffers.length ∧ s.pool.next_victim_id = 0 ∧ s.page_table = [] ∧
    ∀ f ∈ s.pool.buffers, f.usage_count = 0 ∧ f.extraRefs = 0

/-- Manager states reachable from a fresh manager by fetches, handle drops,
dirty-flag writes by handle holders, and changing disk fault behaviour. -/
inductive Reachable : BufferPoolManager → Prop where
  | init (s : BufferPoolManager) : InitState s → Reachable s
  | fetchStep (s : BufferPoolManager) (pid : PageId) :
      Reachable s → Reachable (s.fetch_page pid).2.1
  | dropStep (s : BufferPoolManager) (b : BufferId) :
      Reachable s → Reachable (dropHandle s b)
  | dirtyStep (s : BufferPoolManager) (b : BufferId) (v : Bool) :
      Reachable s → Reachable (setDirtyFlag s b v)
  | faultStep (s : BufferPoolManager) (rE wE : PageId → Option IOError) :
      Reachable s → Reachable (setDiskFaults s rE wE)

/-- Pool invariant: the sweep cursor is in range, and a frame whose buffer has
an outside holder has a positive usage count. -/
def PoolInv (p : BufferPool) : Prop :=
  p.next_victim_id < p.buffers.length ∧
    ∀ i < p.buffers.length,
      (p.buffers.getD i default).extraRefs ≠ 0 →
        0 < (p.buffers.getD i default).usage_count

/-- Internal manager invariant (holds on every reachable state). -/
def MgrInv (s : BufferPoolManager) : Prop :=
  PoolInv s.pool

/-- Page-table invariant from §3 of the design document: every entry `(p, b)`
names an in-range frame whose buffer holds page `p` (its `page_id` field is
`p`), and the mapping is injective (no two `PageId`s map to the same
`BufferId`). -/
def TableInv (s : BufferPoolManager) : Prop :=
  (∀ e ∈ s.page_table, e.2 < s.pool.buffers.length ∧
      (s.pool.buffers.getD e.2 default).buffer.page_id = e.1) ∧
    ∀ e1 ∈ s.page_table, ∀ e2 ∈ s.page_table, e1.2 = e2.2 → e1.1 = e2.1

/-- The frame update performed by the hit path of `fetch_page`: bump
`usage_count` and hand out one more shared reference. -/
def bumpFrame (f : Frame) : Frame :=
  { f with usage_count := f.usage_count + 1, extraRefs := f.extraRefs + 1 }

/-- The victim frame state after `buffer.page_id = page_id; is_dirty.set(false)`
but before the disk read has succeeded (`src/buffer.rs` lines 106-107). -/
def midFrame (f : Frame) (pid : PageId) : Frame :=
  ⟨f.usage_count, ⟨pid, f.buffer.page, false⟩, f.extraRefs⟩

/-- The victim frame after a successful load: fresh content, clean, usage
count 1, one shared handle returned to the caller. -/
def loadedFrame (pid : PageId) (content : Page) : Frame :=
  ⟨1, ⟨pid, content, false⟩, 1⟩

/-! ### Concrete states used by witnesses and counterexamples -/

/-- A disk that always reads empty pages and never fails. -/
def diskStub : DiskManager := ⟨fun _ => [], fun _ => none, fun _ => none⟩

/-- A disk whose durable content for page `p` is the one-byte page `[p]`;
never fails. -/
def diskSeq : DiskManager := ⟨fun p => [p], fun _ => none, fun _ => none⟩

/-- One resident page 9 in frame 0 (dirty, pinned, usage 2); used to exercise
the hit path. -/
def mgrHit : BufferPoolManager :=
  ⟨diskStub, ⟨[⟨2, ⟨9, [1], true⟩, 1⟩], 0⟩, [(9, 0)]⟩

/-- One resident page 3 in frame 0 (clean, usage 1); a `fetch_page 3` hit. -/
def mgrHitC4 : BufferPoolManager :=
  ⟨diskStub, ⟨[⟨1, ⟨3, [], false⟩, 0⟩], 0⟩, [(3, 0)]⟩

/-- One dirty resident page 5 (bytes `[9]`), free frame; a miss on page 7 must
flush page 5 before loading page 7. -/
def mgrDirtyMiss : BufferPoolManager :=
  ⟨diskSeq, ⟨[⟨0, ⟨5, [9], true⟩, 0⟩], 0⟩, [(5, 0)]⟩

/-- Two clean resident pages 5, 6; frame 0 has usage 1, so a miss on page 7
makes the sweep decrement frame 0 and evict frame 1. -/
def mgrSweepMiss : BufferPoolManager :=
  ⟨diskSeq, ⟨[⟨1, ⟨5, [], false⟩, 0⟩, ⟨0, ⟨6, [], false⟩, 0⟩], 0⟩, [(5, 0), (6, 1)]⟩

/-- Dirty resident page 5 whose write-back fails with I/O error 42. -/
def mgrWriteFail : BufferPoolManager :=
  ⟨⟨fun p => [p], fun _ => none, fun q => if q = 5 then some 42 else none⟩,
   ⟨[⟨0, ⟨5, [9], true⟩, 0⟩], 0⟩, [(5, 0)]⟩

/-- Clean resident page 5; reading page 7 fails with I/O error 42. -/
def mgrReadFail : BufferPoolManager :=
  ⟨⟨fun p => [p], fun q => if q = 7 then some 42 else none, fun _ => none⟩,
   ⟨[⟨0, ⟨5, [9], false⟩, 0⟩], 0⟩, [(5, 0)]⟩

/-- A freshly constructed two-frame manager. -/
def mgrInit : BufferPoolManager :=
  ⟨diskStub, ⟨[⟨0, ⟨0, [], false⟩, 0⟩, ⟨0, ⟨0, [], false⟩, 0⟩], 0⟩, []⟩

/-! ### List access lemmas -/

theorem getD_set_self {l : List Frame} {b : Nat} {x d : Frame} (h : b < l.length) :
    (l.set b x).getD b d = x := by
  simp [List.getD_eq_getElem?_getD, List.getElem?_set_self', h]

theorem getD_set_ne {l : List Frame} {b i : Nat} {x d : Frame} (h : b ≠ i) :
    (l.set b x).getD i d = l.getD i d := by
  simp [List.getD_eq_getElem?_getD, List.getElem?_set_ne h]

/-! ### Page table lemmas -/

theorem lookup_removeTable (t : PageTable) (p q : PageId) :
    lookupTable (removeTable t p) q = if q = p then none else lookupTable t q := by
  induction t with
  | nil => simp [removeTable, lookupTable]
  | cons e rest ih =>
    obtain ⟨k, v⟩ := e
    by_cases hkp : k = p
    · subst hkp
      simp only [removeTable, eq_self_iff_true, if_true]
      rw [ih]
      rcases eq_or_ne q k with hq | hq
      · simp [hq]
      · simp [lookupTable, hq, Ne.symm hq]
    · simp only [removeTable, if_neg hkp, lookupTable]
      rcases eq_or_ne k q with hkq | hkq
      · subst hkq
        simp [hkp]
      · simp [hkq, ih]

theorem lookup_insertTable (t : PageTable) (p q : PageId) (b : BufferId) :
    lookupTable (insertTable t p b) q =
      if p = q then some b else lookupTable (removeTable t p) q := by
  simp [insertTable, lookupTable]

/-! ### `unpinnedUsage` -/

theorem unpinnedUsage_cons (g : Frame) (rest : List Frame) :
    unpinnedUsage (g :: rest) = contrib g + unpinnedUsage rest := by
  simp [unpinnedUsage, contrib]

theorem unpinnedUsage_set (bufs : List Frame) (c : Nat) (f' : Frame)
    (h : c < bufs.length) :
    unpinnedUsage (bufs.set c f') + contrib (bufs.getD c default) =
      unpinnedUsage bufs + contrib f' := by
  induction bufs generalizing c with
  | nil => simp at h
  | cons g rest ih =>
    cases c with
    | zero =>
      simp only [List.set, unpinnedUsage_cons, List.getD_cons_zero]
      omega
    | succ c' =>
      have h' : c' < rest.length := by simpa using h
      have := ih c' h'
      simp only [List.set, unpinnedUsage_cons, List.getD_cons_succ] at *
      omega

/-! ### Clock-sweep lemmas -/

theorem getD_set_cases (l : List Frame) (b : Nat) (x : Frame) (h : b < l.length) (i : Nat) :
    (l.set b x).getD i default = if i = b then x else l.getD i default := by
  rcases eq_or_ne i b with rfl | hne
  · rw [if_pos rfl, getD_set_self h]
  · rw [if_neg hne, getD_set_ne (Ne.symm hne)]

theorem contrib_of_unpinned (f : Frame) (h : f.extraRefs = 0) :
    contrib f = f.usage_count := by
  simp [contrib, h]

/-- What one full `evictGo` run guarantees: the frame list keeps its length;
every frame keeps its buffer and its outside-holder count; usage counts only
decrease, and never change on a frame with an outside holder; a returned
victim is the final cursor position and has usage count 0; and the cursor
stays in range. -/
theorem evictGo_sound : ∀ (fuel : Nat) (bufs : List Frame) (c k : Nat)
    (r : Option Nat) (bufs' : List Frame) (c' : Nat),
    evictGo fuel bufs c k = some (r, bufs', c') →
    bufs'.length = bufs.length ∧
    (∀ i, (bufs'.getD i default).buffer = (bufs.getD i default).buffer ∧
      (bufs'.getD i default).extraRefs = (bufs.getD i default).extraRefs ∧
      (bufs'.getD i default).usage_count ≤ (bufs.getD i default).usage_count ∧
      ((bufs.getD i default).extraRefs ≠ 0 →
        (bufs'.getD i default).usage_count = (bufs.getD i default).usage_count)) ∧
    (∀ v, r = some v → v = c' ∧ (bufs'.getD v default).usage_count = 0) ∧
    (c < bufs.length → c' < bufs.length) := by
  intro fuel
  induction fuel with
  | zero =>
    intro bufs c k r bufs' c' h
    simp [evictGo] at h
  | succ fuel ih =>
    intro bufs c k r bufs' c' h
    simp only [evictGo] at h
    by_cases hu : (bufs.getD c default).usage_count = 0
    · rw [if_pos hu] at h
      simp only [Option.some.injEq, Prod.mk.injEq] at h
      obtain ⟨hr, hb, hc⟩ := h
      subst hb; subst hc
      refine ⟨rfl, fun i => ⟨rfl, rfl, le_refl _, fun _ => rfl⟩, ?_, fun hc => hc⟩
      intro v hv
      rw [← hr] at hv
      simp only [Option.some.injEq] at hv
      subst hv
      exact ⟨rfl, hu⟩
    · rw [if_neg hu] at h
      have hcl : c < bufs.length := by
        by_contra hge
        push_neg at hge
        rw [List.getD_eq_default _ _ hge] at hu
        exact hu rfl
      have hlen0 : 0 < bufs.length := by omega
      by_cases hp : (bufs.getD c default).extraRefs = 0
      · rw [if_pos hp] at h
        obtain ⟨S1, S2, S3, S4⟩ := ih _ _ _ _ _ _ h
        rw [List.length_set] at S1 S4
        refine ⟨S1, fun i => ?_, S3, fun _ => S4 (Nat.mod_lt _ hlen0)⟩
        obtain ⟨T1, T2, T3, T4⟩ := S2 i
        rw [getD_set_cases _ _ _ hcl] at T1 T2 T3 T4
        by_cases hic : i = c
        · subst hic
          rw [if_pos rfl] at T1 T2 T3
          exact ⟨T1, T2, Nat.le_trans T3 (Nat.sub_le _ _),
            fun hne0 => absurd hp hne0⟩
        · rw [if_neg hic] at T1 T2 T3 T4
          exact ⟨T1, T2, T3, T4⟩
      · rw [if_neg hp] at h
        by_cases hk : k + 1 ≥ bufs.length
        · rw [if_pos hk] at h
          simp only [Option.some.injEq, Prod.mk.injEq] at h
          obtain ⟨hr, hb, hc⟩ := h
          subst hb; subst hc
          refine ⟨rfl, fun i => ⟨rfl, rfl, le_refl _, fun _ => rfl⟩, ?_, fun hc => hc⟩
          intro v hv
          rw [← hr] at hv
          cases hv
        · rw [if_neg hk] at h
          obtain ⟨S1, S2, S3, S4⟩ := ih _ _ _ _ _ _ h
          exact ⟨S1, S2, S3, fun _ => S4 (Nat.mod_lt _ hlen0)⟩

/-- The fuel bound dominates the sweep: with more fuel than `sweepMeasure`,
`evictGo` cannot run out. -/
theorem evictGo_ne_none : ∀ (fuel : Nat) (bufs : List Frame) (c k : Nat),
    0 < bufs.length → k < bufs.length → sweepMeasure bufs k < fuel →
    evictGo fuel bufs c k ≠ none := by
  intro fuel
  induction fuel with
  | zero =>
    intro bufs c k _ _ hm
    simp [sweepMeasure] at hm
  | succ fuel ih =>
    intro bufs c k hlen0 hk hm
    simp only [evictGo]
    by_cases hu : (bufs.getD c default).usage_count = 0
    · rw [if_pos hu]; simp
    · rw [if_neg hu]
      have hcl : c < bufs.length := by
        by_contra hge
        push_neg at hge
        rw [List.getD_eq_default _ _ hge] at hu
        exact hu rfl
      by_cases hp : (bufs.getD c default).extraRefs = 0
      · rw [if_pos hp]
        have hset := unpinnedUsage_set bufs c
          { bufs.getD c default with
            usage_count := (bufs.getD c default).usage_count - 1 } hcl
        have hcontrib : contrib (bufs.getD c default) =
            (bufs.getD c default).usage_count := contrib_of_unpinned _ hp
        have hcontrib' : contrib { bufs.getD c default with
            usage_count := (bufs.getD c default).usage_count - 1 } =
              (bufs.getD c default).usage_count - 1 := contrib_of_unpinned _ hp
        have hu1 : 1 ≤ (bufs.getD c default).usage_count := by omega
        have hU : unpinnedUsage (bufs.set c { bufs.getD c default with
            usage_count := (bufs.getD c default).usage_count - 1 }) + 1 =
              unpinnedUsage bufs := by omega
        apply ih
        · rw [List.length_set]; exact hlen0
        · rw [List.length_set]; exact hlen0
        · have hmul : unpinnedUsage bufs * bufs.length =
              unpinnedUsage (bufs.set c { bufs.getD c default with
                usage_count := (bufs.getD c default).usage_count - 1 }) *
                  bufs.length + bufs.length := by
            rw [← hU, Nat.succ_mul]
          simp only [sweepMeasure, List.length_set] at *
          omega
      · rw [if_neg hp]
        by_cases hk2 : k + 1 ≥ bufs.length
        · rw [if_pos hk2]; simp
        · rw [if_neg hk2]
          apply ih _ _ _ hlen0 (by omega)
          simp only [sweepMeasure] at *
          omega

/-- Lift of `evictGo_sound` to `BufferPool.evict` (covering the unreachable
fuel-default branch, where the pool is returned unchanged). -/
theorem evict_spec (p : BufferPool) (r : Option BufferId) (p' : BufferPool)
    (h : p.evict = (r, p')) :
    p'.buffers.length = p.buffers.length ∧
    (∀ i, (p'.buffers.getD i default).buffer = (p.buffers.getD i default).buffer ∧
      (p'.buffers.getD i default).extraRefs = (p.buffers.getD i default).extraRefs ∧
      (p'.buffers.getD i default).usage_count ≤ (p.buffers.getD i default).usage_count ∧
      ((p.buffers.getD i default).extraRefs ≠ 0 →
        (p'.buffers.getD i default).usage_count = (p.buffers.getD i default).usage_count)) ∧
    (∀ v, r = some v → v = p'.next_victim_id ∧
      (p'.buffers.getD v default).usage_count = 0) ∧
    (p.next_victim_id < p.buffers.length → p'.next_victim_id < p.buffers.length) := by
  unfold BufferPool.evict at h
  cases hgo : evictGo (evictFuel p.buffers) p.buffers p.next_victim_id 0 with
  | none =>
    rw [hgo] at h
    simp only [Prod.mk.injEq] at h
    obtain ⟨hr, hp'⟩ := h
    subst hr; subst hp'
    exact ⟨rfl, fun i => ⟨rfl, rfl, le_refl _, fun _ => rfl⟩,
      fun v hv => Option.noConfusion hv, fun hc => hc⟩
  | some trip =>
    obtain ⟨r0, bufs', c'⟩ := trip
    rw [hgo] at h
    simp only [Prod.mk.injEq] at h
    obtain ⟨hr, hp'⟩ := h
    subst hr; subst hp'
    obtain ⟨S1, S2, S3, S4⟩ := evictGo_sound _ _ _ _ _ _ _ hgo
    exact ⟨S1, S2, S3, S4⟩

/-- The fuel chosen in `BufferPool.evict` never runs out on a non-empty pool:
the sweep of `src/buffer.rs` terminates. -/
theorem evict_fuel_sufficient (p : BufferPool) (h0 : 0 < p.buffers.length) :
    evictGo (evictFuel p.buffers) p.buffers p.next_victim_id 0 ≠ none := by
  apply evictGo_ne_none _ _ _ _ h0 h0
  simp only [sweepMeasure, evictFuel]
  omega

/-- Claim C8: for every pool state in which the frame at the current cursor position
has `usage_count` 0, `evict()` returns that cursor index immediately, without
decrementing any frame's `usage_count` and without advancing the cursor: the
whole pool is returned unchanged. -/
theorem evict_immediate_on_zero_usage_cursor (p : BufferPool)
    (hc : p.next_victim_id < p.buffers.length)
    (hu : (p.buffers.getD p.next_victim_id default).usage_count = 0) :
    p.evict = (some p.next_victim_id, p) := by
  unfold BufferPool.evict evictFuel
  simp only [evictGo]
  rw [if_pos hu]

/-- Witness for C8 at a concrete one-frame pool. -/
theorem evict_immediate_on_zero_usage_cursor_witness :
    (⟨[⟨0, ⟨3, [], false⟩, 0⟩], 0⟩ : BufferPool).evict =
      (some 0, ⟨[⟨0, ⟨3, [], false⟩, 0⟩], 0⟩) :=
  evict_immediate_on_zero_usage_cursor _ (by decide) (by decide)

/-- Claim C9: a frame with `usage_count = n > 0` and no outside holder, when the
sweep scans it, has its count decremented to `n - 1`, the `consecutive_pinned`
counter reset to 0, and the cursor advanced past it; it is not selected on
that scan step (the sweep simply continues). -/
theorem evictGo_second_chance_step (fuel : Nat) (bufs : List Frame)
    (cursor k n : Nat) (hc : cursor < bufs.length)
    (hn : (bufs.getD cursor default).usage_count = n) (hpos : 0 < n)
    (hup : (bufs.getD cursor default).extraRefs = 0) :
    evictGo (fuel + 1) bufs cursor k =
      evictGo fuel
        (bufs.set cursor { bufs.getD cursor default with usage_count := n - 1 })
        ((cursor + 1) % bufs.length) 0 := by
  simp only [evictGo]
  rw [hn, if_neg (by omega), if_pos hup]

/-- Witness for C9 at a concrete pool (one frame, usage count 2). -/
theorem evictGo_second_chance_step_witness :
    evictGo 6 [⟨2, ⟨0, [], false⟩, 0⟩] 0 0 =
      evictGo 5 [⟨1, ⟨0, [], false⟩, 0⟩] (1 % 1) 0 :=
  evictGo_second_chance_step 5 _ 0 0 2 (by decide) (by decide) (by decide)
    (by decide)

/-- Claim C2 counterexample: a one-frame pool whose frame has an outside shared
holder (`extraRefs = 1`) but `usage_count = 0` — `evict()` does select it as
the victim, so a pinned frame IS returned when its usage count is 0. -/
theorem evict_selects_pinned_frame_with_zero_usage_cex :
    ((⟨[⟨0, ⟨0, [], false⟩, 1⟩], 0⟩ : BufferPool).evict).1 = some 0 := by decide

/-- Claim C2 as amended: a frame whose buffer has an outside shared holder is never
returned as the victim provided its `usage_count` is positive (the code only
performs the pin check on frames whose usage count has not yet reached 0). -/
theorem evict_skips_pinned_frame_with_positive_usage (p : BufferPool) (i : Nat)
    (hpin : (p.buffers.getD i default).extraRefs ≠ 0)
    (hpos : 0 < (p.buffers.getD i default).usage_count) :
    (p.evict).1 ≠ some i := by
  intro hsome
  obtain ⟨S1, S2, S3, S4⟩ := evict_spec p (p.evict).1 (p.evict).2 rfl
  obtain ⟨-, husage⟩ := S3 i hsome
  obtain ⟨-, -, -, T4⟩ := S2 i
  have := T4 hpin
  omega

/-- Witness for amended C2: a two-frame pool where frame 0 is pinned with
positive usage; it is not selected. -/
theorem evict_skips_pinned_frame_with_positive_usage_witness :
    ((⟨[⟨1, ⟨4, [], false⟩, 1⟩, ⟨0, ⟨5, [], false⟩, 0⟩], 0⟩ : BufferPool).evict).1 ≠
      some 0 :=
  evict_skips_pinned_frame_with_positive_usage _ 0 (by decide) (by decide)

/-- Claim C5 counterexample: in a two-frame pool in which EVERY frame is pinned
(each buffer has an outside holder) but the usage counts are 0, `evict()`
returns a victim instead of `none`, refuting "if every frame is pinned,
evict() returns None" as stated. -/
theorem evict_all_pinned_zero_usage_returns_victim_cex :
    ((⟨[⟨0, ⟨0, [], false⟩, 1⟩, ⟨0, ⟨1, [], false⟩, 1⟩], 0⟩ : BufferPool).evict).1 =
      some 0 := by decide

/-- Claim C5 as amended: `evict` (a total function: the sweep always terminates)
returns a victim only if that frame's usage count has reached 0, and if every
frame in a non-empty pool is pinned AND has a positive usage count it returns
`none` rather than looping forever.  (A pinned frame whose usage count is 0 is
instead selected as the victim, per the counterexample.) -/
theorem evict_termination_and_saturation (p : BufferPool)
    (hc : p.next_victim_id < p.buffers.length) :
    ((∀ f ∈ p.buffers, f.extraRefs ≠ 0 ∧ 0 < f.usage_count) →
      (p.evict).1 = none) ∧
    ∀ v, (p.evict).1 = some v → v < p.buffers.length ∧
      ((p.evict).2.buffers.getD v default).usage_count = 0 := by
  obtain ⟨S1, S2, S3, S4⟩ := evict_spec p (p.evict).1 (p.evict).2 rfl
  constructor
  · intro hall
    cases hres : (p.evict).1 with
    | none => rfl
    | some v =>
      exfalso
      obtain ⟨hv, husage⟩ := S3 v hres
      have hvlt : v < p.buffers.length := hv ▸ S4 hc
      have hmem : p.buffers.getD v default ∈ p.buffers := by
        rw [List.getD_eq_getElem p.buffers default hvlt]
        exact List.getElem_mem hvlt
      obtain ⟨hpin, hpos⟩ := hall _ hmem
      obtain ⟨-, -, -, T4⟩ := S2 v
      have := T4 hpin
      omega
  · intro v hres
    obtain ⟨hv, husage⟩ := S3 v hres
    exact ⟨hv ▸ S4 hc, husage⟩

/-- Witness for amended C5: a one-frame pool, its frame pinned with positive
usage; `evict` returns `none`. -/
theorem evict_termination_and_saturation_witness :
    ((⟨[⟨1, ⟨0, [], false⟩, 1⟩], 0⟩ : BufferPool).evict).1 = none :=
  (evict_termination_and_saturation _ (by decide)).1 (by decide)

/-! ### Page-table membership lemmas -/

theorem mem_removeTable (t : PageTable) (p : PageId) (e : PageId × BufferId)
    (h : e ∈ removeTable t p) : e ∈ t ∧ e.1 ≠ p := by
  induction t with
  | nil => simp [removeTable] at h
  | cons a rest ih =>
    obtain ⟨k, v⟩ := a
    by_cases hkp : k = p
    · rw [removeTable, if_pos hkp] at h
      obtain ⟨h1, h2⟩ := ih h
      exact ⟨List.mem_cons_of_mem _ h1, h2⟩
    · rw [removeTable, if_neg hkp] at h
      rcases List.mem_cons.1 h with rfl | h'
      · exact ⟨List.mem_cons_self _ _, hkp⟩
      · obtain ⟨h1, h2⟩ := ih h'
        exact ⟨List.mem_cons_of_mem _ h1, h2⟩

theorem lookup_mem (t : PageTable) (p : PageId) (b : BufferId)
    (h : lookupTable t p = some b) : (p, b) ∈ t := by
  induction t with
  | nil => simp [lookupTable] at h
  | cons a rest ih =>
    obtain ⟨k, v⟩ := a
    by_cases hkp : k = p
    · rw [lookupTable, if_pos hkp] at h
      simp only [Option.some.injEq] at h
      subst hkp; subst h
      exact List.mem_cons_self _ _
    · rw [lookupTable, if_neg hkp] at h
      exact List.mem_cons_of_mem _ (ih h)

/-! ### Branch equations for `fetch_page` -/

/-- Hit path of `fetch_page` (`src/buffer.rs` lines 92-96). -/
theorem fetch_page_hit_eq (s : BufferPoolManager) (pid : PageId) (b : BufferId)
    (hhit : lookupTable s.page_table pid = some b) :
    s.fetch_page pid = (FetchResult.ok b,
      { s with pool := { s.pool with buffers := s.pool.buffers.set b (bumpFrame
          (s.pool.buffers.getD b default)) } },
      []) := by
  unfold BufferPoolManager.fetch_page
  rw [hhit]
  rfl

/-- Miss path when `evict` finds no victim (`src/buffer.rs` line 98). -/
theorem fetch_page_miss_none (s : BufferPoolManager) (pid : PageId)
    (pool' : BufferPool) (hmiss : lookupTable s.page_table pid = none)
    (hev : s.pool.evict = (none, pool')) :
    s.fetch_page pid =
      (FetchResult.err Error.noFreeBuffer, { s with pool := pool' }, []) := by
  unfold BufferPoolManager.fetch_page
  rw [hmiss, hev]

/-- Miss path when the victim's buffer still has an outside holder: the
`Rc::get_mut(..).unwrap()` on line 102 of `src/buffer.rs` panics. -/
theorem fetch_page_miss_panicked (s : BufferPoolManager) (pid : PageId)
    (b : BufferId) (pool' : BufferPool)
    (hmiss : lookupTable s.page_table pid = none)
    (hev : s.pool.evict = (some b, pool'))
    (hpin : (pool'.buffers.getD b default).extraRefs ≠ 0) :
    s.fetch_page pid = (FetchResult.panicked, { s with pool := pool' }, []) := by
  unfold BufferPoolManager.fetch_page
  rw [hmiss, hev]
  simp only [if_pos hpin]

/-- Miss path, dirty victim, failing write-back (`src/buffer.rs` line 104). -/
theorem fetch_page_miss_dirty_wfail (s : BufferPoolManager) (pid : PageId)
    (b : BufferId) (pool' : BufferPool) (e : IOError)
    (hmiss : lookupTable s.page_table pid = none)
    (hev : s.pool.evict = (some b, pool'))
    (hpin : (pool'.buffers.getD b default).extraRefs = 0)
    (hdirty : (pool'.buffers.getD b default).buffer.is_dirty = true)
    (hw : write_page_data s.disk (pool'.buffers.getD b default).buffer.page_id
      (pool'.buffers.getD b default).buffer.page = Except.error e) :
    s.fetch_page pid = (FetchResult.err (Error.ioError e), { s with pool := pool' },
      [IOOp.write (pool'.buffers.getD b default).buffer.page_id
        (pool'.buffers.getD b default).buffer.page]) := by
  unfold BufferPoolManager.fetch_page
  rw [hmiss, hev]
  simp only [if_neg (not_not_intro hpin), if_pos hdirty, hw]

/-- Miss path, dirty victim, successful write-back: continues with the load. -/
theorem fetch_page_miss_dirty_wok (s : BufferPoolManager) (pid : PageId)
    (b : BufferId) (pool' : BufferPool) (d1 : DiskManager)
    (hmiss : lookupTable s.page_table pid = none)
    (hev : s.pool.evict = (some b, pool'))
    (hpin : (pool'.buffers.getD b default).extraRefs = 0)
    (hdirty : (pool'.buffers.getD b default).buffer.is_dirty = true)
    (hw : write_page_data s.disk (pool'.buffers.getD b default).buffer.page_id
      (pool'.buffers.getD b default).buffer.page = Except.ok d1) :
    s.fetch_page pid = fetchLoad d1 pool' s.page_table b pid
      [IOOp.write (pool'.buffers.getD b default).buffer.page_id
        (pool'.buffers.getD b default).buffer.page] := by
  unfold BufferPoolManager.fetch_page
  rw [hmiss, hev]
  simp only [if_neg (not_not_intro hpin), if_pos hdirty, hw]

/-- Miss path, clean victim: no write-back, straight to the load. -/
theorem fetch_page_miss_clean (s : BufferPoolManager) (pid : PageId)
    (b : BufferId) (pool' : BufferPool)
    (hmiss : lookupTable s.page_table pid = none)
    (hev : s.pool.evict = (some b, pool'))
    (hpin : (pool'.buffers.getD b default).extraRefs = 0)
    (hdirty : (pool'.buffers.getD b default).buffer.is_dirty = false) :
    s.fetch_page pid = fetchLoad s.disk pool' s.page_table b pid [] := by
  unfold BufferPoolManager.fetch_page
  rw [hmiss, hev]
  simp only [if_neg (not_not_intro hpin), hdirty]
  rfl

/-- Equation for `fetchLoad` when the disk read fails (`src/buffer.rs` line 108): the
frame's buffer has already been repointed at the requested page with a cleared
dirty flag, but the page table is left untouched. -/
theorem fetchLoad_read_fail (d : DiskManager) (pool' : BufferPool)
    (t : PageTable) (b : BufferId) (pid : PageId) (tr : List IOOp) (e : IOError)
    (hr : read_page_data d pid = Except.error e) :
    fetchLoad d pool' t b pid tr = (FetchResult.err (Error.ioError e),
      ⟨d, { pool' with buffers := pool'.buffers.set b (midFrame
          (pool'.buffers.getD b default) pid) }, t⟩,
      tr ++ [IOOp.read pid]) := by
  unfold fetchLoad
  rw [hr]
  rfl

/-- Equation for `fetchLoad` when the disk read succeeds (`src/buffer.rs` lines 108-114). -/
theorem fetchLoad_read_ok (d : DiskManager) (pool' : BufferPool)
    (t : PageTable) (b : BufferId) (pid : PageId) (tr : List IOOp)
    (content : Page) (hr : read_page_data d pid = Except.ok content) :
    fetchLoad d pool' t b pid tr = (FetchResult.ok b,
      ⟨d, { pool' with buffers := pool'.buffers.set b (loadedFrame pid content) },
       insertTable (removeTable t (pool'.buffers.getD b default).buffer.page_id)
         pid b⟩,
      tr ++ [IOOp.read pid]) := by
  unfold fetchLoad
  rw [hr]
  rfl

/-- Claim C7: a `fetch_page(page_id)` hit increments that frame's `usage_count` by
exactly 1, returns a new shared handle to that frame's buffer (one more
outside reference), performs no disk I/O, and leaves the buffer's page
content and dirty flag, the page table, the disk, all other frames, and the
eviction cursor unchanged. -/
theorem fetch_page_hit_path (s : BufferPoolManager) (pid : PageId)
    (b : BufferId) (hhit : lookupTable s.page_table pid = some b)
    (hb : b < s.pool.buffers.length) :
    (s.fetch_page pid).1 = FetchResult.ok b ∧
    (s.fetch_page pid).2.2 = [] ∧
    (s.fetch_page pid).2.1.disk = s.disk ∧
    (s.fetch_page pid).2.1.page_table = s.page_table ∧
    (s.fetch_page pid).2.1.pool.next_victim_id = s.pool.next_victim_id ∧
    ((s.fetch_page pid).2.1.pool.buffers.getD b default).usage_count =
      (s.pool.buffers.getD b default).usage_count + 1 ∧
    ((s.fetch_page pid).2.1.pool.buffers.getD b default).extraRefs =
      (s.pool.buffers.getD b default).extraRefs + 1 ∧
    ((s.fetch_page pid).2.1.pool.buffers.getD b default).buffer =
      (s.pool.buffers.getD b default).buffer ∧
    ∀ i, i ≠ b →
      (s.fetch_page pid).2.1.pool.buffers.getD i default =
        s.pool.buffers.getD i default := by
  rw [fetch_page_hit_eq s pid b hhit]
  refine ⟨rfl, rfl, rfl, rfl, rfl, ?_, ?_, ?_, ?_⟩
  · show ((s.pool.buffers.set b _).getD b default).usage_count = _
    rw [getD_set_self hb]
    rfl
  · show ((s.pool.buffers.set b _).getD b default).extraRefs = _
    rw [getD_set_self hb]
    rfl
  · show ((s.pool.buffers.set b _).getD b default).buffer = _
    rw [getD_set_self hb]
    rfl
  · intro i hib
    show (s.pool.buffers.set b _).getD i default = _
    rw [getD_set_ne (Ne.symm hib)]

/-- Witness for C7 on `mgrHit` (page 9 resident in frame 0). -/
theorem fetch_page_hit_path_witness :
    (mgrHit.fetch_page 9).1 = FetchResult.ok 0 ∧ (mgrHit.fetch_page 9).2.2 = [] :=
  ⟨(fetch_page_hit_path mgrHit 9 0 (by decide) (by decide)).1,
   (fetch_page_hit_path mgrHit 9 0 (by decide) (by decide)).2.1⟩

/-- Claim C6: on every successful miss whose chosen victim frame is dirty,
`fetch_page` performs exactly one write to durable storage, addressed to the
evicted page's identifier and carrying the evicted page's bytes, and this
write happens before the requested page is read from disk; if the victim is
clean, no write is performed (the I/O trace is exactly the read). -/
theorem fetch_miss_flush_before_load (s : BufferPoolManager) (pid : PageId)
    (b : BufferId) (pool' : BufferPool)
    (hmiss : lookupTable s.page_table pid = none)
    (hev : s.pool.evict = (some b, pool'))
    (hsucc : (s.fetch_page pid).1 = FetchResult.ok b) :
    ((s.pool.buffers.getD b default).buffer.is_dirty = true →
      (s.fetch_page pid).2.2 =
        [IOOp.write (s.pool.buffers.getD b default).buffer.page_id
          (s.pool.buffers.getD b default).buffer.page, IOOp.read pid]) ∧
    ((s.pool.buffers.getD b default).buffer.is_dirty = false →
      (s.fetch_page pid).2.2 = [IOOp.read pid]) := by
  have hbuf : (pool'.buffers.getD b default).buffer =
      (s.pool.buffers.getD b default).buffer :=
    ((evict_spec _ _ _ hev).2.1 b).1
  by_cases hpin : (pool'.buffers.getD b default).extraRefs ≠ 0
  · rw [fetch_page_miss_panicked s pid b pool' hmiss hev hpin] at hsucc
    simp at hsucc
  · push_neg at hpin
    cases hdb : (pool'.buffers.getD b default).buffer.is_dirty with
    | true =>
      cases hw : write_page_data s.disk
          (pool'.buffers.getD b default).buffer.page_id
          (pool'.buffers.getD b default).buffer.page with
      | error e =>
        rw [fetch_page_miss_dirty_wfail s pid b pool' e hmiss hev hpin hdb hw]
          at hsucc
        simp at hsucc
      | ok d1 =>
        have heq := fetch_page_miss_dirty_wok s pid b pool' d1 hmiss hev hpin hdb hw
        cases hr : read_page_data d1 pid with
        | error e2 =>
          rw [heq, fetchLoad_read_fail _ _ _ _ _ _ _ hr] at hsucc
          simp at hsucc
        | ok content =>
          rw [heq, fetchLoad_read_ok _ _ _ _ _ _ _ hr]
          rw [hbuf] at hdb
          constructor
          · intro _
            rw [← hbuf]
            simp
          · intro hclean
            rw [hclean] at hdb
            cases hdb
    | false =>
      have heq := fetch_page_miss_clean s pid b pool' hmiss hev hpin hdb
      cases hr : read_page_data s.disk pid with
      | error e2 =>
        rw [heq, fetchLoad_read_fail _ _ _ _ _ _ _ hr] at hsucc
        simp at hsucc
      | ok content =>
        rw [heq, fetchLoad_read_ok _ _ _ _ _ _ _ hr]
        rw [hbuf] at hdb
        constructor
        · intro hd
          rw [hd] at hdb
          cases hdb
        · intro _
          simp

/-- Witness for C6 on `mgrDirtyMiss`: fetching page 7 flushes dirty page 5
(bytes `[9]`) before reading page 7. -/
theorem fetch_miss_flush_before_load_witness :
    (mgrDirtyMiss.fetch_page 7).2.2 = [IOOp.write 5 [9], IOOp.read 7] :=
  (fetch_miss_flush_before_load mgrDirtyMiss 7 0 mgrDirtyMiss.pool (by decide)
    (by decide) (by decide)).1 (by decide)

/-- Claim C10 counterexample: on `mgrSweepMiss`, fetching absent page 7 evicts
frame 1, yet frame 0 — not the victim — has its `usage_count` changed from 1
to 0 by the clock sweep, refuting "all frames other than the chosen victim are
left entirely unchanged (including their usage_counts)". -/
theorem fetch_miss_decrements_other_frame_cex :
    (mgrSweepMiss.fetch_page 7).1 = FetchResult.ok 1 ∧
    (mgrSweepMiss.pool.buffers.getD 0 default).usage_count = 1 ∧
    ((mgrSweepMiss.fetch_page 7).2.1.pool.buffers.getD 0 default).usage_count
      = 0 := by decide

/-- Claim C10 as amended: every `fetch_page` call performs 0, 1 (load only) or 2
(flush + load) block I/O operations; every successful miss updates the page
table and overwrites exactly one frame's buffer — every other frame keeps its
buffer (content, identifier, dirty flag) and its outside references, though
the clock sweep may have decremented its `usage_count`. -/
theorem fetch_page_io_bound_and_miss_effect (s : BufferPoolManager)
    (pid : PageId) :
    (s.fetch_page pid).2.2.length ≤ 2 ∧
    ∀ b pool', lookupTable s.page_table pid = none →
      s.pool.evict = (some b, pool') →
      (s.fetch_page pid).1 = FetchResult.ok b →
      lookupTable (s.fetch_page pid).2.1.page_table pid = some b ∧
      ∀ j, j ≠ b →
        ((s.fetch_page pid).2.1.pool.buffers.getD j default).buffer =
          (s.pool.buffers.getD j default).buffer ∧
        ((s.fetch_page pid).2.1.pool.buffers.getD j default).extraRefs =
          (s.pool.buffers.getD j default).extraRefs ∧
        ((s.fetch_page pid).2.1.pool.buffers.getD j default).usage_count ≤
          (s.pool.buffers.getD j default).usage_count := by
  cases hl : lookupTable s.page_table pid with
  | some b0 =>
    rw [fetch_page_hit_eq s pid b0 hl]
    refine ⟨by simp, ?_⟩
    intro b pool' hmiss _ _
    cases hmiss
  | none =>
    cases hev : s.pool.evict with
    | mk r pool' =>
      obtain ⟨S1, S2, S3, S4⟩ := evict_spec _ _ _ hev
      cases r with
      | none =>
        rw [fetch_page_miss_none s pid pool' hl hev]
        refine ⟨by simp, ?_⟩
        intro b pool'' _ hev' _
        simp at hev'
      | some b0 =>
        by_cases hpin : (pool'.buffers.getD b0 default).extraRefs ≠ 0
        · rw [fetch_page_miss_panicked s pid b0 pool' hl hev hpin]
          refine ⟨by simp, ?_⟩
          intro b pool'' _ hev' hsucc
          simp at hsucc
        · push_neg at hpin
          cases hdb : (pool'.buffers.getD b0 default).buffer.is_dirty with
          | true =>
            cases hw : write_page_data s.disk
                (pool'.buffers.getD b0 default).buffer.page_id
                (pool'.buffers.getD b0 default).buffer.page with
            | error e =>
              rw [fetch_page_miss_dirty_wfail s pid b0 pool' e hl hev hpin hdb hw]
              refine ⟨by simp, ?_⟩
              intro b pool'' _ hev' hsucc
              simp at hsucc
            | ok d1 =>
              have heq := fetch_page_miss_dirty_wok s pid b0 pool' d1 hl hev
                hpin hdb hw
              cases hr : read_page_data d1 pid with
              | error e2 =>
                rw [heq, fetchLoad_read_fail _ _ _ _ _ _ _ hr]
                refine ⟨by simp, ?_⟩
                intro b pool'' _ hev' hsucc
                simp at hsucc
              | ok content =>
                rw [heq, fetchLoad_read_ok _ _ _ _ _ _ _ hr]
                refine ⟨by simp, ?_⟩
                intro b pool'' _ hev' _
                simp only [Prod.mk.injEq, Option.some.injEq] at hev'
                obtain ⟨rfl, rfl⟩ := hev'
                constructor
                · rw [lookup_insertTable, if_pos rfl]
                · intro j hj
                  show ((pool'.buffers.set b0 _).getD j default).buffer = _ ∧ _
                  rw [getD_set_ne (Ne.symm hj)]
                  obtain ⟨T1, T2, T3, -⟩ := S2 j
                  exact ⟨T1, T2, T3⟩
          | false =>
            have heq := fetch_page_miss_clean s pid b0 pool' hl hev hpin hdb
            cases hr : read_page_data s.disk pid with
            | error e2 =>
              rw [heq, fetchLoad_read_fail _ _ _ _ _ _ _ hr]
              refine ⟨by simp, ?_⟩
              intro b pool'' _ hev' hsucc
              simp at hsucc
            | ok content =>
              rw [heq, fetchLoad_read_ok _ _ _ _ _ _ _ hr]
              refine ⟨by simp, ?_⟩
              intro b pool'' _ hev' _
              simp only [Prod.mk.injEq, Option.some.injEq] at hev'
              obtain ⟨rfl, rfl⟩ := hev'
              constructor
              · rw [lookup_insertTable, if_pos rfl]
              · intro j hj
                show ((pool'.buffers.set b0 _).getD j default).buffer = _ ∧ _
                rw [getD_set_ne (Ne.symm hj)]
                obtain ⟨T1, T2, T3, -⟩ := S2 j
                exact ⟨T1, T2, T3⟩

/-- Witness for amended C10 on `mgrSweepMiss`. -/
theorem fetch_page_io_bound_and_miss_effect_witness :
    (mgrSweepMiss.fetch_page 7).2.2.length ≤ 2 ∧
    lookupTable (mgrSweepMiss.fetch_page 7).2.1.page_table 7 = some 1 :=
  ⟨(fetch_page_io_bound_and_miss_effect mgrSweepMiss 7).1,
   ((fetch_page_io_bound_and_miss_effect mgrSweepMiss 7).2 1
     ⟨[⟨0, ⟨5, [], false⟩, 0⟩, ⟨0, ⟨6, [], false⟩, 0⟩], 1⟩
     (by decide) (by decide) (by decide)).1⟩

/-- Table facts about the state produced by a successful miss: the rebuilt
page table satisfies the invariant, maps the requested page to the victim
frame (which now holds it), and has no entry for the evicted page when that
page differs from the requested one. -/
theorem loaded_state_table_facts (s : BufferPoolManager) (pid : PageId)
    (b0 : BufferId) (pool' : BufferPool) (d1 : DiskManager) (content : Page)
    (hT : TableInv s) (hlen' : pool'.buffers.length = s.pool.buffers.length)
    (hbuf : ∀ i, (pool'.buffers.getD i default).buffer =
      (s.pool.buffers.getD i default).buffer)
    (hblt : b0 < s.pool.buffers.length) :
    TableInv ⟨d1, { pool' with buffers := pool'.buffers.set b0 (loadedFrame pid content) }, insertTable (removeTable s.page_table (pool'.buffers.getD b0 default).buffer.page_id) pid b0⟩ ∧
    lookupTable (insertTable (removeTable s.page_table
      (pool'.buffers.getD b0 default).buffer.page_id) pid b0) pid = some b0 ∧
    ((pool'.buffers.set b0 (loadedFrame pid content)).getD b0
      default).buffer.page_id = pid ∧
    ((s.pool.buffers.getD b0 default).buffer.page_id ≠ pid →
      lookupTable (insertTable (removeTable s.page_table
        (pool'.buffers.getD b0 default).buffer.page_id) pid b0)
        ((s.pool.buffers.getD b0 default).buffer.page_id) = none) := by
  have hq : (pool'.buffers.getD b0 default).buffer.page_id =
      (s.pool.buffers.getD b0 default).buffer.page_id :=
    congrArg Buffer.page_id (hbuf b0)
  have hside : ∀ e ∈ removeTable (removeTable s.page_table
      (pool'.buffers.getD b0 default).buffer.page_id) pid,
      e ∈ s.page_table ∧ e.1 ≠ (pool'.buffers.getD b0 default).buffer.page_id ∧
        e.2 ≠ b0 := by
    intro e he'
    obtain ⟨he2, hne_pid⟩ := mem_removeTable _ _ _ he'
    obtain ⟨he3, hne_q⟩ := mem_removeTable _ _ _ he2
    obtain ⟨-, hpg⟩ := hT.1 e he3
    exact ⟨he3, hne_q, fun hEq => hne_q (by rw [← hpg, hEq, hq])⟩
  refine ⟨⟨?_, ?_⟩, ?_, ?_, ?_⟩
  · intro e he
    rcases List.mem_cons.1 he with rfl | he'
    · constructor
      · show b0 < (pool'.buffers.set b0 (loadedFrame pid content)).length
        rw [List.length_set, hlen']
        exact hblt
      · show ((pool'.buffers.set b0 (loadedFrame pid content)).getD b0
          default).buffer.page_id = pid
        rw [getD_set_self (by rw [hlen']; exact hblt)]
        rfl
    · obtain ⟨he3, hne_q, hne_b⟩ := hside e he'
      obtain ⟨hlt, hpg⟩ := hT.1 e he3
      constructor
      · show e.2 < (pool'.buffers.set b0 (loadedFrame pid content)).length
        rw [List.length_set, hlen']
        exact hlt
      · show ((pool'.buffers.set b0 (loadedFrame pid content)).getD e.2
          default).buffer.page_id = e.1
        rw [getD_set_ne (Ne.symm hne_b), hbuf e.2, hpg]
  · intro e1 he1 e2 he2 hb
    rcases List.mem_cons.1 he1 with rfl | he1' <;>
      rcases List.mem_cons.1 he2 with rfl | he2'
    · rfl
    · exact absurd hb.symm (hside e2 he2').2.2
    · exact absurd hb (hside e1 he1').2.2
    · exact hT.2 e1 (hside e1 he1').1 e2 (hside e2 he2').1 hb
  · rw [lookup_insertTable, if_pos rfl]
  · rw [getD_set_self (by rw [hlen']; exact hblt)]
    rfl
  · intro hne
    rw [lookup_insertTable, if_neg (fun h => hne h.symm), lookup_removeTable,
      if_neg hne, lookup_removeTable, if_pos hq.symm]

/-- Claim C4 counterexample: on a successful hit the table MUST still contain an
entry for the page the frame previously held, because that page IS the
requested page — "no entry for the page that frame previously held" fails on
every hit. -/
theorem fetch_hit_keeps_previous_occupant_entry_cex :
    (mgrHitC4.fetch_page 3).1 = FetchResult.ok 0 ∧
    (mgrHitC4.pool.buffers.getD 0 default).buffer.page_id = 3 ∧
    lookupTable (mgrHitC4.fetch_page 3).2.1.page_table 3 = some 0 := by decide

/-- Claim C4 as amended: every successful `fetch_page` preserves the page-table
invariant (each entry `(p, b)` names an in-range frame whose buffer's
`page_id` is `p`; the mapping is injective); afterwards the table maps the
requested page to the frame that now holds it, and — when the page the frame
previously held differs from the requested page — that previous page has no
entry. -/
theorem fetch_page_preserves_table_invariant (s : BufferPoolManager)
    (pid : PageId) (b' : BufferId) (hT : TableInv s)
    (hc : s.pool.next_victim_id < s.pool.buffers.length)
    (hsucc : (s.fetch_page pid).1 = FetchResult.ok b') :
    TableInv (s.fetch_page pid).2.1 ∧
    lookupTable (s.fetch_page pid).2.1.page_table pid = some b' ∧
    ((s.fetch_page pid).2.1.pool.buffers.getD b' default).buffer.page_id = pid ∧
    ((s.pool.buffers.getD b' default).buffer.page_id ≠ pid →
      lookupTable (s.fetch_page pid).2.1.page_table
        ((s.pool.buffers.getD b' default).buffer.page_id) = none) := by
  cases hl : lookupTable s.page_table pid with
  | some b0 =>
    have heq := fetch_page_hit_eq s pid b0 hl
    rw [heq] at hsucc
    simp only [FetchResult.ok.injEq] at hsucc
    subst hsucc
    obtain ⟨hblt, hpg⟩ := hT.1 (pid, b0) (lookup_mem _ _ _ hl)
    rw [heq]
    refine ⟨⟨?_, hT.2⟩, hl, ?_, ?_⟩
    · intro e he
      obtain ⟨hlt, hpg'⟩ := hT.1 e he
      constructor
      · show e.2 < (s.pool.buffers.set b0 _).length
        rw [List.length_set]
        exact hlt
      · show ((s.pool.buffers.set b0 (bumpFrame (s.pool.buffers.getD b0
          default))).getD e.2 default).buffer.page_id = e.1
        rw [getD_set_cases _ _ _ hblt]
        by_cases hce : e.2 = b0
        · rw [if_pos hce]
          rw [hce] at hpg'
          exact hpg'
        · rw [if_neg hce]
          exact hpg'
    · show ((s.pool.buffers.set b0 _).getD b0 default).buffer.page_id = pid
      rw [getD_set_self hblt]
      exact hpg
    · intro hne
      exact absurd hpg hne
  | none =>
    cases hev : s.pool.evict with
    | mk r pool' =>
      obtain ⟨S1, S2, S3, S4⟩ := evict_spec _ _ _ hev
      cases r with
      | none =>
        rw [fetch_page_miss_none s pid pool' hl hev] at hsucc
        simp at hsucc
      | some b0 =>
        have hbuf : ∀ i, (pool'.buffers.getD i default).buffer =
            (s.pool.buffers.getD i default).buffer := fun i => (S2 i).1
        have hblt : b0 < s.pool.buffers.length := by
          obtain ⟨hv, -⟩ := S3 b0 rfl
          rw [hv]
          exact S4 hc
        by_cases hpin : (pool'.buffers.getD b0 default).extraRefs ≠ 0
        · rw [fetch_page_miss_panicked s pid b0 pool' hl hev hpin] at hsucc
          simp at hsucc
        · push_neg at hpin
          cases hdb : (pool'.buffers.getD b0 default).buffer.is_dirty with
          | true =>
            cases hw : write_page_data s.disk
                (pool'.buffers.getD b0 default).buffer.page_id
                (pool'.buffers.getD b0 default).buffer.page with
            | error e =>
              rw [fetch_page_miss_dirty_wfail s pid b0 pool' e hl hev hpin hdb hw]
                at hsucc
              simp at hsucc
            | ok d1 =>
              have heq := fetch_page_miss_dirty_wok s pid b0 pool' d1 hl hev
                hpin hdb hw
              cases hr : read_page_data d1 pid with
              | error e2 =>
                rw [heq, fetchLoad_read_fail _ _ _ _ _ _ _ hr] at hsucc
                simp at hsucc
              | ok content =>
                rw [heq, fetchLoad_read_ok _ _ _ _ _ _ _ hr] at hsucc ⊢
                simp only [FetchResult.ok.injEq] at hsucc
                subst hsucc
                exact loaded_state_table_facts s pid b0 pool' d1 content hT S1
                  hbuf hblt
          | false =>
            have heq := fetch_page_miss_clean s pid b0 pool' hl hev hpin hdb
            cases hr : read_page_data s.disk pid with
            | error e2 =>
              rw [heq, fetchLoad_read_fail _ _ _ _ _ _ _ hr] at hsucc
              simp at hsucc
            | ok content =>
              rw [heq, fetchLoad_read_ok _ _ _ _ _ _ _ hr] at hsucc ⊢
              simp only [FetchResult.ok.injEq] at hsucc
              subst hsucc
              exact loaded_state_table_facts s pid b0 pool' s.disk content hT S1
                hbuf hblt

/-- Witness for amended C4: a successful hit on `mgrHitC4` keeps the table
mapping page 3 to frame 0, which holds it. -/
theorem fetch_page_preserves_table_invariant_witness :
    lookupTable (mgrHitC4.fetch_page 3).2.1.page_table 3 = some 0 ∧
    ((mgrHitC4.fetch_page 3).2.1.pool.buffers.getD 0 default).buffer.page_id
      = 3 := by
  have h := fetch_page_preserves_table_invariant mgrHitC4 3 0
    (by exact ⟨by decide, by decide⟩) (by decide) (by decide)
  exact ⟨h.2.1, h.2.2.1⟩

/-- Claim C1 counterexample: on `mgrReadFail` (page 5 resident and mapped, read of
page 7 fails) the fetch propagates the I/O error but leaves a stale page-table
entry: the table still maps the evicted page 5 to frame 0 while frame 0's
buffer now bears `page_id` 7 — the code mutates the victim's identifier
before the fallible read and does not clean the table. -/
theorem fetch_read_failure_leaves_stale_entry_cex :
    (mgrReadFail.fetch_page 7).1 = FetchResult.err (Error.ioError 42) ∧
    lookupTable (mgrReadFail.fetch_page 7).2.1.page_table 5 = some 0 ∧
    ((mgrReadFail.fetch_page 7).2.1.pool.buffers.getD 0 default).buffer.page_id
      = 7 := by decide

/-- Claim C1 as amended: disk failures propagate unmodified (wrapped as the I/O
variant of the error enum) and never mutate the page table.  A failed write
leaves every frame's buffer exactly as it was before the fetch (only sweep
usage counts and the cursor may have moved).  A failed read also leaves the
table untouched, but the victim frame's buffer has already been repointed at
the requested page with a cleared dirty flag (its old bytes still in place),
so the table may retain a stale entry for the evicted page. -/
theorem fetch_page_io_failure_propagation (s : BufferPoolManager)
    (pid : PageId) (b : BufferId) (pool' : BufferPool)
    (hmiss : lookupTable s.page_table pid = none)
    (hev : s.pool.evict = (some b, pool'))
    (hpin : (pool'.buffers.getD b default).extraRefs = 0) :
    (∀ i, (pool'.buffers.getD i default).buffer =
      (s.pool.buffers.getD i default).buffer) ∧
    (∀ e, (pool'.buffers.getD b default).buffer.is_dirty = true →
      s.disk.writeErr (pool'.buffers.getD b default).buffer.page_id = some e →
      s.fetch_page pid = (FetchResult.err (Error.ioError e),
        { s with pool := pool' },
        [IOOp.write (pool'.buffers.getD b default).buffer.page_id
          (pool'.buffers.getD b default).buffer.page])) ∧
    (∀ e, (pool'.buffers.getD b default).buffer.is_dirty = false →
      s.disk.readErr pid = some e →
      s.fetch_page pid = (FetchResult.err (Error.ioError e),
        ⟨s.disk, { pool' with buffers := pool'.buffers.set b (midFrame (pool'.buffers.getD b default) pid) }, s.page_table⟩,
        [IOOp.read pid])) ∧
    (∀ e, (pool'.buffers.getD b default).buffer.is_dirty = true →
      s.disk.writeErr (pool'.buffers.getD b default).buffer.page_id = none →
      s.disk.readErr pid = some e →
      s.fetch_page pid = (FetchResult.err (Error.ioError e),
        ⟨{ s.disk with store := fun r => if r = (pool'.buffers.getD b default).buffer.page_id then (pool'.buffers.getD b default).buffer.page else s.disk.store r }, { pool' with buffers := pool'.buffers.set b (midFrame (pool'.buffers.getD b default) pid) }, s.page_table⟩,
        [IOOp.write (pool'.buffers.getD b default).buffer.page_id
          (pool'.buffers.getD b default).buffer.page, IOOp.read pid])) := by
  refine ⟨fun i => ((evict_spec _ _ _ hev).2.1 i).1, ?_, ?_, ?_⟩
  · intro e hdb hwe
    have hw : write_page_data s.disk
        (pool'.buffers.getD b default).buffer.page_id
        (pool'.buffers.getD b default).buffer.page = Except.error e := by
      unfold write_page_data
      rw [hwe]
    exact fetch_page_miss_dirty_wfail s pid b pool' e hmiss hev hpin hdb hw
  · intro e hdb hre
    have hr : read_page_data s.disk pid = Except.error e := by
      unfold read_page_data
      rw [hre]
    rw [fetch_page_miss_clean s pid b pool' hmiss hev hpin hdb,
      fetchLoad_read_fail _ _ _ _ _ _ _ hr]
    rfl
  · intro e hdb hwe hre
    have hw : write_page_data s.disk
        (pool'.buffers.getD b default).buffer.page_id
        (pool'.buffers.getD b default).buffer.page = Except.ok
          { s.disk with store := fun r => if r = (pool'.buffers.getD b default).buffer.page_id then (pool'.buffers.getD b default).buffer.page else s.disk.store r } := by
      unfold write_page_data
      rw [hwe]
    have hr : read_page_data { s.disk with store := fun r => if r = (pool'.buffers.getD b default).buffer.page_id then (pool'.buffers.getD b default).buffer.page else s.disk.store r } pid = Except.error e := by
      unfold read_page_data
      show (match s.disk.readErr pid with
        | some e => Except.error e
        | none => _) = Except.error e
      rw [hre]
    rw [fetch_page_miss_dirty_wok s pid b pool' _ hmiss hev hpin hdb hw,
      fetchLoad_read_fail _ _ _ _ _ _ _ hr]
    rfl

/-- Witness for amended C1 on `mgrWriteFail`: the failed write-back of dirty
page 5 surfaces as I/O error 42 and the page table is untouched. -/
theorem fetch_page_io_failure_propagation_witness :
    (mgrWriteFail.fetch_page 7).1 = FetchResult.err (Error.ioError 42) ∧
    (mgrWriteFail.fetch_page 7).2.1.page_table = [(5, 0)] := by
  have h := (fetch_page_io_failure_propagation mgrWriteFail 7 0 mgrWriteFail.pool
    (by decide) (by decide) (by decide)).2.1 42 (by decide) (by decide)
  rw [h]
  exact ⟨rfl, rfl⟩

/-- Eviction preserves the pool invariant. -/
theorem poolInv_evict (p : BufferPool) (r : Option BufferId) (p' : BufferPool)
    (hev : p.evict = (r, p')) (h : PoolInv p) : PoolInv p' := by
  obtain ⟨S1, S2, S3, S4⟩ := evict_spec _ _ _ hev
  obtain ⟨hc, hp⟩ := h
  refine ⟨by rw [S1]; exact S4 hc, ?_⟩
  intro i hi href
  rw [S1] at hi
  obtain ⟨-, T2, -, T4⟩ := S2 i
  rw [T2] at href
  rw [T4 href]
  exact hp i hi href

/-- Repointing the victim at the requested page (the failed-read intermediate
state) preserves the pool invariant when the victim has no outside holder. -/
theorem poolInv_set_mid (pool' : BufferPool) (b : BufferId) (pid : PageId)
    (hP : PoolInv pool')
    (hpin : (pool'.buffers.getD b default).extraRefs = 0) :
    PoolInv { pool' with buffers := pool'.buffers.set b (midFrame (pool'.buffers.getD b default) pid) } := by
  obtain ⟨hc, hp⟩ := hP
  refine ⟨by rw [List.length_set]; exact hc, ?_⟩
  intro i hi href
  rw [List.length_set] at hi
  by_cases hb : b < pool'.buffers.length
  · rw [getD_set_cases _ _ _ hb] at href ⊢
    by_cases hib : i = b
    · rw [if_pos hib] at href
      exact absurd hpin href
    · rw [if_neg hib] at href ⊢
      exact hp i hi href
  · rw [List.set_eq_of_length_le (le_of_not_lt hb)] at href ⊢
    exact hp i hi href

/-- Installing the freshly loaded frame preserves the pool invariant. -/
theorem poolInv_set_loaded (pool' : BufferPool) (b : BufferId) (pid : PageId)
    (content : Page) (hP : PoolInv pool') :
    PoolInv { pool' with buffers := pool'.buffers.set b (loadedFrame pid content) } := by
  obtain ⟨hc, hp⟩ := hP
  refine ⟨by rw [List.length_set]; exact hc, ?_⟩
  intro i hi href
  rw [List.length_set] at hi
  by_cases hb : b < pool'.buffers.length
  · rw [getD_set_cases _ _ _ hb] at href ⊢
    by_cases hib : i = b
    · rw [if_pos hib]
      exact Nat.one_pos
    · rw [if_neg hib] at href ⊢
      exact hp i hi href
  · rw [List.set_eq_of_length_le (le_of_not_lt hb)] at href ⊢
    exact hp i hi href

/-- Fetching preserves the manager invariant, on every branch. -/
theorem mgrInv_fetch (s : BufferPoolManager) (pid : PageId) (h : MgrInv s) :
    MgrInv (s.fetch_page pid).2.1 := by
  obtain ⟨hc, hp⟩ := h
  cases hl : lookupTable s.page_table pid with
  | some b =>
    rw [fetch_page_hit_eq s pid b hl]
    by_cases hb : b < s.pool.buffers.length
    · refine ⟨?_, ?_⟩
      · show s.pool.next_victim_id < (s.pool.buffers.set b _).length
        rw [List.length_set]
        exact hc
      · intro i hi href
        show 0 < ((s.pool.buffers.set b _).getD i default).usage_count
        rw [List.length_set] at hi
        rw [getD_set_cases _ _ _ hb] at href ⊢
        by_cases hib : i = b
        · rw [if_pos hib]
          exact Nat.succ_pos _
        · rw [if_neg hib] at href ⊢
          exact hp i hi href
    · show PoolInv { s.pool with buffers := s.pool.buffers.set b _ }
      rw [List.set_eq_of_length_le (le_of_not_lt hb)]
      exact ⟨hc, hp⟩
  | none =>
    cases hev : s.pool.evict with
    | mk r pool' =>
      have hP' : PoolInv pool' := poolInv_evict _ _ _ hev ⟨hc, hp⟩
      cases r with
      | none =>
        rw [fetch_page_miss_none s pid pool' hl hev]
        exact hP'
      | some b0 =>
        by_cases hpin : (pool'.buffers.getD b0 default).extraRefs ≠ 0
        · rw [fetch_page_miss_panicked s pid b0 pool' hl hev hpin]
          exact hP'
        · push_neg at hpin
          cases hdb : (pool'.buffers.getD b0 default).buffer.is_dirty with
          | true =>
            cases hw : write_page_data s.disk
                (pool'.buffers.getD b0 default).buffer.page_id
                (pool'.buffers.getD b0 default).buffer.page with
            | error e =>
              rw [fetch_page_miss_dirty_wfail s pid b0 pool' e hl hev hpin hdb hw]
              exact hP'
            | ok d1 =>
              have heq := fetch_page_miss_dirty_wok s pid b0 pool' d1 hl hev
                hpin hdb hw
              cases hr : read_page_data d1 pid with
              | error e2 =>
                rw [heq, fetchLoad_read_fail _ _ _ _ _ _ _ hr]
                exact poolInv_set_mid pool' b0 pid hP' hpin
              | ok content =>
                rw [heq, fetchLoad_read_ok _ _ _ _ _ _ _ hr]
                exact poolInv_set_loaded pool' b0 pid content hP'
          | false =>
            have heq := fetch_page_miss_clean s pid b0 pool' hl hev hpin hdb
            cases hr : read_page_data s.disk pid with
            | error e2 =>
              rw [heq, fetchLoad_read_fail _ _ _ _ _ _ _ hr]
              exact poolInv_set_mid pool' b0 pid hP' hpin
            | ok content =>
              rw [heq, fetchLoad_read_ok _ _ _ _ _ _ _ hr]
              exact poolInv_set_loaded pool' b0 pid content hP'

/-- Dropping an outside handle preserves the manager invariant. -/
theorem mgrInv_drop (s : BufferPoolManager) (b : BufferId) (h : MgrInv s) :
    MgrInv (dropHandle s b) := by
  obtain ⟨hc, hp⟩ := h
  unfold dropHandle MgrInv PoolInv
  dsimp only
  refine ⟨by rw [List.length_set]; exact hc, ?_⟩
  intro i hi href
  rw [List.length_set] at hi
  by_cases hb : b < s.pool.buffers.length
  · rw [getD_set_cases _ _ _ hb] at href ⊢
    by_cases hib : i = b
    · rw [if_pos hib] at href ⊢
      have h1 : (s.pool.buffers.getD b default).extraRefs - 1 ≠ 0 := href
      show 0 < (s.pool.buffers.getD b default).usage_count
      exact hp b hb (by omega)
    · rw [if_neg hib] at href ⊢
      exact hp i hi href
  · rw [List.set_eq_of_length_le (le_of_not_lt hb)] at href ⊢
    exact hp i hi href

/-- Setting the dirty flag through a shared handle preserves the invariant. -/
theorem mgrInv_dirty (s : BufferPoolManager) (b : BufferId) (v : Bool)
    (h : MgrInv s) : MgrInv (setDirtyFlag s b v) := by
  obtain ⟨hc, hp⟩ := h
  unfold setDirtyFlag MgrInv PoolInv
  dsimp only
  refine ⟨by rw [List.length_set]; exact hc, ?_⟩
  intro i hi href
  rw [List.length_set] at hi
  by_cases hb : b < s.pool.buffers.length
  · rw [getD_set_cases _ _ _ hb] at href ⊢
    by_cases hib : i = b
    · rw [if_pos hib] at href ⊢
      have h1 : (s.pool.buffers.getD b default).extraRefs ≠ 0 := href
      show 0 < (s.pool.buffers.getD b default).usage_count
      exact hp b hb h1
    · rw [if_neg hib] at href ⊢
      exact hp i hi href
  · rw [List.set_eq_of_length_le (le_of_not_lt hb)] at href ⊢
    exact hp i hi href

/-- Changing disk fault behaviour does not touch the pool. -/
theorem mgrInv_faults (s : BufferPoolManager) (rE wE : PageId → Option IOError)
    (h : MgrInv s) : MgrInv (setDiskFaults s rE wE) := h

/-- A freshly constructed manager satisfies the invariant. -/
theorem mgrInv_init (s : BufferPoolManager) (h : InitState s) : MgrInv s := by
  obtain ⟨hlen, hcur, -, hall⟩ := h
  refine ⟨by rw [hcur]; exact hlen, ?_⟩
  intro i hi href
  have hmem : s.pool.buffers.getD i default ∈ s.pool.buffers := by
    rw [List.getD_eq_getElem _ _ hi]
    exact List.getElem_mem hi
  obtain ⟨-, h0⟩ := hall _ hmem
  exact absurd h0 href

/-- Every reachable manager state satisfies the invariant. -/
theorem reachable_mgrInv (s : BufferPoolManager) (h : Reachable s) :
    MgrInv s := by
  induction h with
  | init s hs => exact mgrInv_init s hs
  | fetchStep s pid _ ih => exact mgrInv_fetch s pid ih
  | dropStep s b _ ih => exact mgrInv_drop s b ih
  | dirtyStep s b v _ ih => exact mgrInv_dirty s b v ih
  | faultStep s rE wE _ ih => exact mgrInv_faults s rE wE ih

/-- Claim C3: on every reachable manager state, whenever `fetch_page` takes the miss
path and `evict()` returns a victim, that frame's buffer has no outside
holder — so `Rc::get_mut(..).unwrap()` succeeds — and `fetch_page` is total:
it returns `Ok` or `Err`, never panicking. -/
theorem fetch_page_total_on_reachable_states (s : BufferPoolManager)
    (hreach : Reachable s) (pid : PageId) :
    (∀ b pool', lookupTable s.page_table pid = none →
      s.pool.evict = (some b, pool') →
      (pool'.buffers.getD b default).extraRefs = 0) ∧
    ((∃ b, (s.fetch_page pid).1 = FetchResult.ok b) ∨
      ∃ e, (s.fetch_page pid).1 = FetchResult.err e) := by
  obtain ⟨hc, hp⟩ := reachable_mgrInv s hreach
  have hkey : ∀ b pool', lookupTable s.page_table pid = none →
      s.pool.evict = (some b, pool') →
      (pool'.buffers.getD b default).extraRefs = 0 := by
    intro b pool' hmiss hev
    obtain ⟨S1, S2, S3, S4⟩ := evict_spec _ _ _ hev
    obtain ⟨hv, husage⟩ := S3 b rfl
    have hblt : b < s.pool.buffers.length := by
      rw [hv]
      exact S4 hc
    by_contra hne
    obtain ⟨-, T2, -, T4⟩ := S2 b
    rw [T2] at hne
    have h1 := hp b hblt hne
    have h2 := T4 hne
    omega
  refine ⟨hkey, ?_⟩
  cases hl : lookupTable s.page_table pid with
  | some b =>
    rw [fetch_page_hit_eq s pid b hl]
    exact Or.inl ⟨b, rfl⟩
  | none =>
    cases hev : s.pool.evict with
    | mk r pool' =>
      cases r with
      | none =>
        rw [fetch_page_miss_none s pid pool' hl hev]
        exact Or.inr ⟨Error.noFreeBuffer, rfl⟩
      | some b0 =>
        have hpin := hkey b0 pool' hl hev
        cases hdb : (pool'.buffers.getD b0 default).buffer.is_dirty with
        | true =>
          cases hw : write_page_data s.disk
              (pool'.buffers.getD b0 default).buffer.page_id
              (pool'.buffers.getD b0 default).buffer.page with
          | error e =>
            rw [fetch_page_miss_dirty_wfail s pid b0 pool' e hl hev hpin hdb hw]
            exact Or.inr ⟨_, rfl⟩
          | ok d1 =>
            have heq := fetch_page_miss_dirty_wok s pid b0 pool' d1 hl hev
              hpin hdb hw
            cases hr : read_page_data d1 pid with
            | error e2 =>
              rw [heq, fetchLoad_read_fail _ _ _ _ _ _ _ hr]
              exact Or.inr ⟨_, rfl⟩
            | ok content =>
              rw [heq, fetchLoad_read_ok _ _ _ _ _ _ _ hr]
              exact Or.inl ⟨b0, rfl⟩
        | false =>
          have heq := fetch_page_miss_clean s pid b0 pool' hl hev hpin hdb
          cases hr : read_page_data s.disk pid with
          | error e2 =>
            rw [heq, fetchLoad_read_fail _ _ _ _ _ _ _ hr]
            exact Or.inr ⟨_, rfl⟩
          | ok content =>
            rw [heq, fetchLoad_read_ok _ _ _ _ _ _ _ hr]
            exact Or.inl ⟨b0, rfl⟩

/-- Witness for C3 on the freshly constructed `mgrInit` (reachable by
`Reachable.init`). -/
theorem fetch_page_total_on_reachable_states_witness :
    (∃ b, (mgrInit.fetch_page 5).1 = FetchResult.ok b) ∨
      ∃ e, (mgrInit.fetch_page 5).1 = FetchResult.err e :=
  (fetch_page_total_on_reachable_states mgrInit
    (Reachable.init mgrInit ⟨by decide, by decide, by decide, by decide⟩) 5).2
